import Mathlib

/-!
Verification development for the talon-loadmaster ingestion-and-retrieval
pipeline.  The TypeScript edge functions and the SQL similarity-search
functions are shallowly embedded here: JavaScript strings are modelled as
`List Char` (one entry per UTF-16 unit of the source string), similarity
scores as `ℚ`, fallible external calls as `Except`/`Option`, and the
single-shot request body of the Fetch API as an explicit `Option` payload.
-/

namespace Talon

/-! ### JavaScript string primitives -/

/-- JS `String.prototype.trim`: strip whitespace from both ends. -/
def jsTrim (cs : List Char) : List Char :=
  ((cs.dropWhile Char.isWhitespace).reverse.dropWhile Char.isWhitespace).reverse

/-- JS `String.prototype.split(sep)` for a one-character separator.  Always
returns at least one (possibly empty) piece, like JS `split`. -/
def splitOnChar (sep : Char) (cs : List Char) : List (List Char) :=
  cs.foldr
    (fun c acc =>
      if c = sep then [] :: acc
      else
        match acc with
        | h :: t => (c :: h) :: t
        | [] => [[c]])
    [[]]

/-- JS `Array.prototype.join(sep)`. -/
def joinWith (sep : List Char) : List (List Char) → List Char
  | [] => []
  | [x] => x
  | x :: y :: ys => x ++ sep ++ joinWith sep (y :: ys)

/-- Decimal rendering of a natural number, as in a JS template `${i}`. -/
def natToChars (n : Nat) : List Char := Nat.toDigits 10 n

/-- JS `text.slice(start, end)` for `start ≤ end ≤ text.length`. -/
def jsSlice (cs : List Char) (s e : Nat) : List Char := (cs.take e).drop s

/-- JS `text.lastIndexOf(c, fromIdx)`: the largest index `i ≤ fromIdx` whose
character is `c`, or `-1` when there is none. -/
def jsLastIndexOf (cs : List Char) (c : Char) (fromIdx : Nat) : Int :=
  ((List.range cs.length).filter
      (fun i => decide (i ≤ fromIdx) && (cs.getD i ' ' == c))).foldl
    (fun acc i => max acc (i : Int)) (-1)

/-! ### Chunker (`chunkText` in `process-document`, identical in both copies
of the ingestion function: part_000 lines 162-193 and part_001 lines 861-892) -/

structure TextChunk where
  content : List Char
  startIndex : Nat
  endIndex : Nat
deriving DecidableEq

/-- The `endIndex` computed by one iteration of the `chunkText` loop:
`endIndex = min(startIndex + maxChunkSize, text.length)`, then snapped back to
the nearest sentence terminator or newline when that end is interior and the
snap target lies past the half-window mark.  The JS guard
`breakPoint > startIndex + maxChunkSize * 0.5` is expressed exactly over `Int`
as `2 * breakPoint > 2 * startIndex + maxChunkSize`. -/
def snapEndIndex (cs : List Char) (maxChunkSize startIndex : Nat) : Nat :=
  let endIndex := min (startIndex + maxChunkSize) cs.length
  if endIndex < cs.length then
    let lastPeriod := jsLastIndexOf cs '.' endIndex
    let lastNewline := jsLastIndexOf cs '\n' endIndex
    let breakPoint := max lastPeriod lastNewline
    if 2 * breakPoint > 2 * (startIndex : Int) + (maxChunkSize : Int) then
      (breakPoint + 1).toNat
    else endIndex
  else endIndex

/-- `startIndex = Math.max(startIndex + 1, endIndex - overlap)`.  In JS the
subtraction can be negative; it then loses against `startIndex + 1 ≥ 1`,
exactly as ℕ truncated subtraction does here. -/
def chunkNextStart (cs : List Char) (maxChunkSize overlap startIndex : Nat) : Nat :=
  max (startIndex + 1) (snapEndIndex cs maxChunkSize startIndex - overlap)

/-- The `while (startIndex < text.length)` loop of `chunkText`, with explicit
fuel; `chunkText` runs it with fuel `text.length`, which suffices because each
iteration advances `startIndex` by at least one. -/
def chunkTextAux (cs : List Char) (maxChunkSize overlap : Nat) :
    Nat → Nat → List TextChunk
  | 0, _ => []
  | fuel + 1, startIndex =>
    if startIndex < cs.length then
      let endIndex := snapEndIndex cs maxChunkSize startIndex
      let content := jsTrim (jsSlice cs startIndex endIndex)
      let rest := chunkTextAux cs maxChunkSize overlap fuel
        (chunkNextStart cs maxChunkSize overlap startIndex)
      if 0 < content.length then ⟨content, startIndex, endIndex⟩ :: rest else rest
    else []

/-- `chunkText(text, maxChunkSize, overlap)` from `process-document`
(part_000 lines 162-193; textually identical in part_001 lines 861-892). -/
def chunkText (cs : List Char) (maxChunkSize overlap : Nat) : List TextChunk :=
  chunkTextAux cs maxChunkSize overlap cs.length 0

/-- The snapped end index of the legacy `chunkText` (part_001 lines 400-442),
which additionally considers the last space as a break point. -/
def snapEndIndexLegacy (cs : List Char) (maxChunkSize startIndex : Nat) : Nat :=
  let endIndex := min (startIndex + maxChunkSize) cs.length
  if endIndex < cs.length then
    let lastSentenceEnd := jsLastIndexOf cs '.' endIndex
    let lastNewline := jsLastIndexOf cs '\n' endIndex
    let lastSpace := jsLastIndexOf cs ' ' endIndex
    let bestEndIndex := max (max lastSentenceEnd lastNewline) lastSpace
    if 2 * bestEndIndex > 2 * (startIndex : Int) + (maxChunkSize : Int) then
      (bestEndIndex + 1).toNat
    else endIndex
  else endIndex

/-- Loop advance of the legacy `chunkText`. -/
def chunkNextStartLegacy (cs : List Char) (maxChunkSize overlap startIndex : Nat) : Nat :=
  max (startIndex + 1) (snapEndIndexLegacy cs maxChunkSize startIndex - overlap)

/-- The window loop of the legacy `chunkText` (part_001 lines 411-439). -/
def chunkTextLegacyAux (cs : List Char) (maxChunkSize overlap : Nat) :
    Nat → Nat → List TextChunk
  | 0, _ => []
  | fuel + 1, startIndex =>
    if startIndex < cs.length then
      let endIndex := snapEndIndexLegacy cs maxChunkSize startIndex
      let content := jsTrim (jsSlice cs startIndex endIndex)
      let rest := chunkTextLegacyAux cs maxChunkSize overlap fuel
        (chunkNextStartLegacy cs maxChunkSize overlap startIndex)
      if 0 < content.length then ⟨content, startIndex, endIndex⟩ :: rest else rest
    else []

/-- Legacy `chunkText` (part_001 lines 400-442): early-returns a single chunk
whenever `text.length <= maxChunkSize`, otherwise runs the window loop. -/
def chunkTextLegacy (cs : List Char) (maxChunkSize overlap : Nat) : List TextChunk :=
  if cs.length ≤ maxChunkSize then [⟨cs, 0, cs.length⟩]
  else chunkTextLegacyAux cs maxChunkSize overlap cs.length 0

/-! ### CSV extraction -/

/-- JS `col.replace(/^"|"$/g, '')`: remove one leading and one trailing
double-quote character, each when present. -/
def stripOuterQuotes (cs : List Char) : List Char :=
  let s1 := match cs with
    | '"' :: rest => rest
    | _ => cs
  if s1.getLast? = some '"' then s1.dropLast else s1

/-- `line.split(',').map(col => col.trim().replace(/^"|"$/g, ''))` of the
Table-Headers CSV parser. -/
def csvColumns (line : List Char) : List (List Char) :=
  (splitOnChar ',' line).map (fun col => stripOuterQuotes (jsTrim col))

/-- `parseCSVToText` of part_001 lines 832-853 (the Table-Headers variant):
lines are split on `'\n'` and trimmed, blank lines are skipped, line 0 renders
as `Table Headers: <cols joined by ", ">` and line `i ≥ 1` as
`Row i: <cols joined by " | ">`; the rendered rows are joined with `'\n'`. -/
def parseCSVToText (csvContent : List Char) : List Char :=
  let lines := splitOnChar '\n' csvContent
  let rows := lines.enum.filterMap (fun p =>
    let line := jsTrim p.2
    if line.isEmpty then none
    else if p.1 = 0 then
      some ("Table Headers: ".data ++ joinWith ", ".data (csvColumns line))
    else
      some ("Row ".data ++ natToChars p.1 ++ ": ".data ++
        joinWith " | ".data (csvColumns line)))
  joinWith "\n".data rows

/-- `parseCSVToText` of part_001 lines 291-307 (the CSV-Headers variant):
no column splitting; line 0 contributes `CSV Headers: <line>\n\n`, line
`i ≥ 1` contributes `Row i: <line>\n`, blank lines contribute nothing. -/
def parseCSVToTextLegacy (csvText : List Char) : List Char :=
  let lines := splitOnChar '\n' csvText
  (lines.enum.map (fun p =>
    let line := jsTrim p.2
    if line.isEmpty then []
    else if p.1 = 0 then "CSV Headers: ".data ++ line ++ "\n\n".data
    else "Row ".data ++ natToChars p.1 ++ ": ".data ++ line ++ "\n".data)).flatten

/-! ### Embedding-service inputs

The repository holds four copies of `generateEmbedding`.  Each builds the
`input` field of the request body from the caller-supplied text; the network
call itself is external, so only that input construction is embedded. -/

/-- `generateEmbedding` of `add-manual-knowledge` (lines 91-115) and of the
URL-ingestion function (part_001 lines 1056-1080): the input is silently
truncated to `maxLength = 8000` characters before being sent. -/
def manualKnowledgeEmbeddingInput (text : List Char) : List Char :=
  if 8000 < text.length then text.take 8000 else text

/-- `generateEmbedding` of the document-ingestion functions (part_000 lines
195-215, part_001 lines 444-463 and 894-914): the text is sent unchanged. -/
def documentIngestEmbeddingInput (text : List Char) : List Char := text

/-- `generateEmbedding` of `chat-with-talon` (add-manual-knowledge file,
lines 258-278): the text is sent unchanged. -/
def chatEmbeddingInput (text : List Char) : List Char := text

/-! ### Similarity search (SQL functions `search_chunks` and
`search_knowledge`, part_002 lines 1-67)

The pgvector expression `dc.embedding <=> query_embedding` is the cosine
distance of a stored row to the fixed query embedding; each row carries that
value as `queryDist : ℚ`, and `similarity = 1 - queryDist` as in the SQL. -/

structure ChunkRow where
  id : Nat
  document_id : Nat
  content : List Char
  queryDist : ℚ
deriving DecidableEq

structure DocumentRow where
  id : Nat
  upload_status : List Char
deriving DecidableEq

structure KnowledgeRow where
  id : Nat
  title : List Char
  content : List Char
  hasEmbedding : Bool
  queryDist : ℚ
deriving DecidableEq

/-- `ORDER BY dc.embedding <=> query_embedding` (ascending distance). -/
def distLE (a b : ChunkRow) : Prop := a.queryDist ≤ b.queryDist

instance : DecidableRel distLE :=
  fun a b => inferInstanceAs (Decidable (a.queryDist ≤ b.queryDist))

instance : IsTotal ChunkRow distLE :=
  ⟨fun a b => le_total a.queryDist b.queryDist⟩

instance : IsTrans ChunkRow distLE :=
  ⟨fun _ _ _ hab hbc => le_trans hab hbc⟩

/-- `ORDER BY kb.embedding <=> query_embedding` (ascending distance). -/
def kdistLE (a b : KnowledgeRow) : Prop := a.queryDist ≤ b.queryDist

instance : DecidableRel kdistLE :=
  fun a b => inferInstanceAs (Decidable (a.queryDist ≤ b.queryDist))

instance : IsTotal KnowledgeRow kdistLE :=
  ⟨fun a b => le_total a.queryDist b.queryDist⟩

instance : IsTrans KnowledgeRow kdistLE :=
  ⟨fun _ _ _ hab hbc => le_trans hab hbc⟩

/-- `search_chunks(query_embedding, match_threshold, match_count)`:
join to `documents` on `document_id`, keep rows of completed documents with
`1 - dist > match_threshold`, order by ascending distance, `LIMIT match_count`.
The order produced by the SQL engine is some distance-sorted permutation of
the kept rows; insertion sort realises one. -/
def search_chunks (docs : List DocumentRow) (rows : List ChunkRow)
    (match_threshold : ℚ) (match_count : Nat) : List ChunkRow :=
  (List.insertionSort distLE
    (rows.filter (fun dc =>
      (docs.any (fun d => d.id == dc.document_id &&
        d.upload_status == "completed".data)) &&
      decide ((1 : ℚ) - dc.queryDist > match_threshold)))).take match_count

/-- `search_knowledge(query_embedding, match_threshold, match_count)`:
keep rows with a non-null embedding and `1 - dist > match_threshold`, order by
ascending distance, `LIMIT match_count`. -/
def search_knowledge (rows : List KnowledgeRow)
    (match_threshold : ℚ) (match_count : Nat) : List KnowledgeRow :=
  (List.insertionSort kdistLE
    (rows.filter (fun kb =>
      kb.hasEmbedding &&
      decide ((1 : ℚ) - kb.queryDist > match_threshold)))).take match_count

/-! ### Ingestion pipeline (`process-document` serve handlers) -/

/-- `const batchSize = 5`. -/
def batchSize : Nat := 5

/-- One pass of the batch loop
`for (let i = 0; i < chunks.length; i += batchSize)`, with explicit fuel (one
unit per batch; `chunks.length` units are ample).  Within a batch the rows
inserted are `chunk_index = i + index` for each in-batch position `index`;
`ok j` records whether chunk `j`'s `generateEmbedding` call and its
`document_chunks` insert both succeeded — a failure is caught inside the
per-chunk `try/catch` (or merely logged for an insert error), so the chunk is
simply skipped. -/
def processBatchesAux {α : Type} (chunks : List α) (ok : Nat → Bool) :
    Nat → Nat → List (Nat × α)
  | 0, _ => []
  | fuel + 1, i =>
    if i < chunks.length then
      ((chunks.drop i).take batchSize).enum.filterMap
        (fun p => if ok (i + p.1) then some (i + p.1, p.2) else none)
      ++ processBatchesAux chunks ok fuel (i + batchSize)
    else []

/-- The rows inserted into `document_chunks` by one ingestion run, as
`(chunk_index, chunk)` pairs in insertion order. -/
def processBatches {α : Type} (chunks : List α) (ok : Nat → Bool) :
    List (Nat × α) :=
  processBatchesAux chunks ok chunks.length 0

/-- `chunk_index` values are dense and start at 0: the recorded indices are
exactly `0, 1, ..., count - 1` in order. -/
def denseFrom0 {α : Type} (rows : List (Nat × α)) : Prop :=
  rows.map Prod.fst = List.range rows.length

instance {α : Type} (rows : List (Nat × α)) : Decidable (denseFrom0 rows) :=
  inferInstanceAs (Decidable (_ = _))

/-- `upload_status` values written to the `documents` table. -/
inductive UploadStatus
  | pending
  | processing
  | completed
  | failed
deriving DecidableEq

/-- Observable outcome of one ingestion request: the sequence of
`upload_status` updates issued, the `document_chunks` rows inserted, and
whether the HTTP response was a success (200) or the catch handler's 500. -/
structure IngestOutcome where
  statusWrites : List UploadStatus
  inserted : List (Nat × TextChunk)
  httpOk : Bool
deriving DecidableEq

/-- The `serve` handler of part_001 (lines 17-146, same shape at lines
483-608): `documentId` is declared outside the `try`, so the catch handler can
always issue the best-effort `upload_status = 'failed'` update once the
request body was parsed.  `body` is the parsed JSON payload
(`none` when `req.json()` itself rejects — then `documentId` was never
assigned and the catch skips the update); `download` and `extract` are the
storage download and the text extraction, `chunkFn` the chunker applied to
the extracted text, and `ok` the per-chunk embed-and-insert success. -/
def ingestServe001 (body : Option (List Char × List Char))
    (download : Except (List Char) (List Char))
    (extract : List Char → Except (List Char) (List Char))
    (chunkFn : List Char → List TextChunk)
    (ok : Nat → Bool) : IngestOutcome :=
  match body with
  | none => ⟨[], [], false⟩
  | some _ =>
    match download with
    | .error _ => ⟨[.processing, .failed], [], false⟩
    | .ok file =>
      match extract file with
      | .error _ => ⟨[.processing, .failed], [], false⟩
      | .ok text =>
        if (jsTrim text).length = 0 then ⟨[.processing, .failed], [], false⟩
        else ⟨[.processing, .completed], processBatches (chunkFn text) ok, true⟩

/-- The `serve` handler of part_000 (lines 16-133).  Its catch handler
re-reads the request body — `await req.json().catch(() => ({}))` — but per the
Fetch specification a request body is a one-shot stream: the first
`req.json()` at the top of the `try` already consumed it, so the re-read
always rejects, is caught into `{}`, `body.documentId` is `undefined`, and the
`upload_status = 'failed'` update is skipped on every error path. -/
def ingestServe000 (body : Option (List Char × List Char))
    (download : Except (List Char) (List Char))
    (extract : List Char → Except (List Char) (List Char))
    (chunkFn : List Char → List TextChunk)
    (ok : Nat → Bool) : IngestOutcome :=
  match body with
  | none => ⟨[], [], false⟩
  | some _ =>
    match download with
    | .error _ => ⟨[.processing], [], false⟩
    | .ok file =>
      match extract file with
      | .error _ => ⟨[.processing], [], false⟩
      | .ok text =>
        if (jsTrim text).length = 0 then ⟨[.processing], [], false⟩
        else ⟨[.processing, .completed], processBatches (chunkFn text) ok, true⟩

/-! ### Chat context assembly (`chat-with-talon`, add-manual-knowledge file
lines 130-256) -/

/-- A row returned by the `search_chunks` RPC, as consumed by the context
assembly (only `content` is read). -/
structure RpcChunkHit where
  content : String
deriving DecidableEq

/-- A row returned by the `search_knowledge` RPC, as consumed by the context
assembly (`title` and `content` are read). -/
structure RpcKnowledgeHit where
  title : String
  content : String
deriving DecidableEq

/-- The document-excerpt section of the context block:
`if (relevantChunks && relevantChunks.length > 0)` append the header and one
`[n] <content>\n\n` line per hit.  A failed RPC delivers `data = null`,
modelled as `none`. -/
def chunkSection (relevantChunks : Option (List RpcChunkHit)) : String :=
  match relevantChunks with
  | some l =>
    if 0 < l.length then
      "Relevant document excerpts:\n\n" ++
        String.join (l.enum.map (fun p =>
          "[" ++ toString (p.1 + 1) ++ "] " ++ p.2.content ++ "\n\n"))
    else ""
  | none => ""

/-- The knowledge-base section of the context block, with
`[KBn] <title>: <content>` items. -/
def knowledgeSection (relevantKnowledge : Option (List RpcKnowledgeHit)) : String :=
  match relevantKnowledge with
  | some l =>
    if 0 < l.length then
      "Relevant knowledge base entries:\n\n" ++
        String.join (l.enum.map (fun p =>
          "[KB" ++ toString (p.1 + 1) ++ "] " ++ p.2.title ++ ": " ++
            p.2.content ++ "\n\n"))
    else ""
  | none => ""

/-- `context`, built by appending the two sections to the empty string. -/
def buildChatContext (relevantChunks : Option (List RpcChunkHit))
    (relevantKnowledge : Option (List RpcKnowledgeHit)) : String :=
  chunkSection relevantChunks ++ knowledgeSection relevantKnowledge

/-- Fixed text of the system prompt preceding the context interpolation. -/
def promptHead : String :=
  "You are TALON, a specialized AI assistant for military vehicle load planning and transportation operations. Your expertise includes:\n\n- Military vehicle specifications and capabilities\n- Load planning procedures and calculations\n- Equipment and munition considerations\n- Transportation logistics and operations\n- Infrastructure requirements and constraints\n- Safety protocols and regulations\n\nAlways provide accurate, professional, and actionable advice. If you don\x27t have specific information, clearly state your limitations and suggest consulting official military documentation or subject matter experts.\n\n"

/-- Fixed text of the system prompt following the context interpolation. -/
def promptTail : String :=
  "\n\nRespond in a helpful, professional manner appropriate for military personnel."

/-- The system prompt template: the context paragraph is interpolated only
when `context` is truthy, i.e. non-empty. -/
def systemPrompt (context : String) : String :=
  promptHead ++
    (if context = "" then ""
     else "Use the following context information to inform your response:\n\n" ++ context) ++
    promptTail

/-- The chat handler's successful response body: the assistant text and the
`contextsUsed` counts (`relevantChunks?.length || 0`). -/
structure ChatResponse where
  response : String
  documentChunks : Nat
  knowledgeEntries : Nat
deriving DecidableEq

/-- The `chat-with-talon` serve handler.  `embed` is the query embedding call
(a rejection is caught by the outer handler and becomes a 500), the two
search arguments are the RPC results (`{data, error}` destructuring: an error
is only logged and leaves `data = null`), and `complete` is the generation
call on the assembled system prompt. -/
def chatServe (embed : Except String (List ℚ))
    (searchChunksRes : Except String (List RpcChunkHit))
    (searchKnowledgeRes : Except String (List RpcKnowledgeHit))
    (complete : String → Except String String) : Except String ChatResponse :=
  match embed with
  | .error e => .error e
  | .ok _ =>
    let relevantChunks := searchChunksRes.toOption
    let relevantKnowledge := searchKnowledgeRes.toOption
    let context := buildChatContext relevantChunks relevantKnowledge
    match complete (systemPrompt context) with
    | .error e => .error e
    | .ok answer =>
      .ok ⟨answer, (relevantChunks.getD []).length, (relevantKnowledge.getD []).length⟩

/-! ### URL-ingestion title derivation -/

/-- `extractTitleFromContent(content, url)` (part_001 lines 1040-1054).
`parseHostname` stands for the external WHATWG `new URL(url).hostname`
constructor, with the JS `try/catch` rendered as `Option`. -/
def extractTitleFromContent (content url : List Char)
    (parseHostname : List Char → Option (List Char)) : List Char :=
  let firstLine := jsTrim ((splitOnChar '\n' content).headD [])
  if 10 < firstLine.length ∧ firstLine.length < 100 then firstLine
  else
    match parseHostname url with
    | some host => "Content from ".data ++ host
    | none => "Web Content".data

/-- Executable substring test (`text containing "..."` in the properties). -/
def containsSub (needle hay : List Char) : Bool :=
  (List.range (hay.length + 1)).any (fun i => (hay.drop i).take needle.length == needle)

/-! ### Demonstration data for the similarity-search scenario (two stored
chunks with similarities 0.82 and 0.65, threshold 0.7) -/

def demoDoc : DocumentRow := ⟨7, "completed".data⟩

def demoChunkHigh : ChunkRow := ⟨1, 7, "alpha".data, 9/50⟩

def demoChunkLow : ChunkRow := ⟨2, 7, "bravo".data, 7/20⟩

/-! ## Helper lemmas -/

theorem chunkTextAux_stable (cs : List Char) (m o : Nat) :
    ∀ fuel start, cs.length - start ≤ fuel →
      chunkTextAux cs m o (fuel + 1) start = chunkTextAux cs m o fuel start := by
  intro fuel
  induction fuel with
  | zero =>
    intro start h
    have hs : ¬ start < cs.length := by omega
    simp only [chunkTextAux, if_neg hs]
  | succ fuel ih =>
    intro start h
    by_cases hs : start < cs.length
    · have hnext : cs.length - chunkNextStart cs m o start ≤ fuel := by
        have h1 : start + 1 ≤ chunkNextStart cs m o start := le_max_left _ _
        omega
      conv_lhs => rw [chunkTextAux]
      conv_rhs => rw [chunkTextAux]
      rw [if_pos hs, if_pos hs, ih _ hnext]
    · conv_lhs => rw [chunkTextAux]
      conv_rhs => rw [chunkTextAux]
      rw [if_neg hs, if_neg hs]

theorem chunkTextAux_of_le (cs : List Char) (m o : Nat) :
    ∀ fuel, cs.length ≤ fuel → chunkTextAux cs m o fuel 0 = chunkText cs m o := by
  intro fuel
  induction fuel with
  | zero =>
    intro h
    have h0 : cs.length = 0 := by omega
    rw [chunkText, h0]
  | succ fuel ih =>
    intro h
    rcases Nat.lt_or_ge fuel cs.length with hlt | hge
    · have h1 : cs.length = fuel + 1 := by omega
      rw [chunkText, h1]
    · rw [chunkTextAux_stable cs m o fuel 0 (by omega), ih hge]

theorem filterMap_enumFrom_shift {α : Type} (ok : Nat → Bool) :
    ∀ (l : List α) (n i : Nat),
      (l.enumFrom n).filterMap
          (fun p => if ok (i + p.1) then some (i + p.1, p.2) else none)
        = (l.enumFrom (i + n)).filterMap (fun p => if ok p.1 then some p else none) := by
  intro l
  induction l with
  | nil => intro n i; rfl
  | cons a l ih =>
    intro n i
    have heq : i + (n + 1) = (i + n) + 1 := by omega
    cases h : ok (i + n) <;>
      simp only [List.enumFrom_cons, List.filterMap_cons, h, if_true, if_false,
        ite_true, ite_false] <;>
      rw [ih (n + 1) i, heq]

theorem enumFrom_append {α : Type} :
    ∀ (l₁ l₂ : List α) (n : Nat),
      (l₁ ++ l₂).enumFrom n = l₁.enumFrom n ++ l₂.enumFrom (n + l₁.length) := by
  intro l₁
  induction l₁ with
  | nil => intro l₂ n; simp
  | cons a l ih =>
    intro l₂ n
    simp only [List.cons_append, List.enumFrom_cons, ih, List.length_cons]
    have heq : n + 1 + l.length = n + (l.length + 1) := by omega
    rw [heq]

theorem processBatchesAux_eq {α : Type} (chunks : List α) (ok : Nat → Bool) :
    ∀ fuel i, chunks.length - i ≤ batchSize * fuel →
      processBatchesAux chunks ok fuel i
        = ((chunks.drop i).enumFrom i).filterMap
            (fun p => if ok p.1 then some p else none) := by
  intro fuel
  induction fuel with
  | zero =>
    intro i h
    have hlen : chunks.length ≤ i := by
      have : batchSize * 0 = 0 := rfl
      omega
    simp [processBatchesAux, List.drop_eq_nil_of_le hlen]
  | succ fuel ih =>
    intro i h
    by_cases hi : i < chunks.length
    · have hih := ih (i + batchSize)
        (by simp only [batchSize] at h ⊢; omega)
      conv_rhs => rw [← List.take_append_drop batchSize (chunks.drop i)]
      rw [enumFrom_append, List.filterMap_append]
      have hshift :
          ((chunks.drop i).take batchSize).enum.filterMap
              (fun p => if ok (i + p.1) then some (i + p.1, p.2) else none)
            = (((chunks.drop i).take batchSize).enumFrom i).filterMap
                (fun p => if ok p.1 then some p else none) := by
        rw [List.enum_eq_enumFrom, filterMap_enumFrom_shift, Nat.add_zero]
      rcases Nat.lt_or_ge (chunks.length - i) batchSize with hsmall | hbig
      · have hd1 : (chunks.drop i).drop batchSize = [] := by
          apply List.drop_eq_nil_of_le
          simp only [List.length_drop]
          omega
        have hd2 : chunks.drop (i + batchSize) = [] :=
          List.drop_eq_nil_of_le (by omega)
        simp only [processBatchesAux, if_pos hi, hih, hd1, hd2, hshift,
          List.enumFrom_nil, List.filterMap_nil]
      · have hlen5 : ((chunks.drop i).take batchSize).length = batchSize := by
          simp only [List.length_take, List.length_drop]
          omega
        have hdd : (chunks.drop i).drop batchSize = chunks.drop (i + batchSize) := by
          rw [List.drop_drop]
        simp only [processBatchesAux, if_pos hi, hih, hshift, hlen5, hdd]
    · have hd : chunks.drop i = [] := List.drop_eq_nil_of_le (by omega)
      simp [processBatchesAux, if_neg hi, hd]

theorem processBatches_eq {α : Type} (chunks : List α) (ok : Nat → Bool) :
    processBatches chunks ok
      = chunks.enum.filterMap (fun p => if ok p.1 then some p else none) := by
  rw [processBatches,
    processBatchesAux_eq chunks ok chunks.length 0
      (by simp only [batchSize]; omega)]
  simp [List.enum_eq_enumFrom]

/-! ## Claims -/

/-- C5: `chunkText` terminates for every text, `max_size` and `overlap`:
each loop iteration advances the window start to
`max(start + 1, end - overlap)`, which is strictly greater than the previous
start, so the loop needs at most `text.length` iterations — running the loop
body with any fuel of at least `text.length` computes `chunkText`. -/
theorem c5_chunkText_progress_and_termination (cs : List Char)
    (maxChunkSize overlap : Nat) :
    (∀ startIndex, startIndex < chunkNextStart cs maxChunkSize overlap startIndex) ∧
    (∀ fuel, cs.length ≤ fuel →
      chunkTextAux cs maxChunkSize overlap fuel 0 = chunkText cs maxChunkSize overlap) :=
  ⟨fun s => lt_of_lt_of_le (Nat.lt_succ_self s) (le_max_left _ _),
   fun fuel h => chunkTextAux_of_le cs maxChunkSize overlap fuel h⟩

/-- Witness for C5 at a concrete input. -/
theorem c5_chunkText_progress_and_termination_witness :
    0 < chunkNextStart ("ab".data) 1000 200 0 ∧
    chunkTextAux ("ab".data) 1000 200 7 0 = chunkText ("ab".data) 1000 200 :=
  ⟨(c5_chunkText_progress_and_termination ("ab".data) 1000 200).1 0,
   (c5_chunkText_progress_and_termination ("ab".data) 1000 200).2 7 (by decide)⟩

/-- C4, counterexample to the claim as stated: in the part_000 variant the
non-empty two-character input `"ab"` (shorter than `max_size = 1000`) yields
two chunks, not one — after emitting the full-span chunk the loop re-enters at
`start = max(1, 2 - 200) = 1` and emits the tail `"b"`; and in the part_001
legacy variant the length-0 input yields one chunk (with empty content), not
zero, because of the early return for `text.length <= maxChunkSize`. -/
theorem c4_chunking_counterexample :
    (chunkText ("ab".data) 1000 200).length = 2 ∧
    chunkText ("ab".data) 1000 200
      = [⟨"ab".data, 0, 2⟩, ⟨"b".data, 1, 2⟩] ∧
    (chunkTextLegacy ([] : List Char) 1000 200).length = 1 := by
  decide

/-- C4 as amended: the part_000 `chunkText` yields zero chunks on length-0
input, and the part_001 legacy `chunkText` yields exactly one chunk spanning
the whole input whenever `text.length ≤ max_size` (including the length-0
input, where that single chunk has empty content). -/
theorem c4_chunking_amended (maxChunkSize overlap : Nat) (cs : List Char) :
    chunkText [] maxChunkSize overlap = [] ∧
    (cs.length ≤ maxChunkSize →
      chunkTextLegacy cs maxChunkSize overlap = [⟨cs, 0, cs.length⟩]) := by
  refine ⟨rfl, fun h => ?_⟩
  rw [chunkTextLegacy, if_pos h]

/-- Witness for the amended C4 at concrete inputs. -/
theorem c4_chunking_amended_witness :
    chunkText [] 1000 200 = [] ∧
    chunkTextLegacy ("hi".data) 1000 200 = [⟨"hi".data, 0, ("hi".data).length⟩] :=
  ⟨(c4_chunking_amended 1000 200 []).1,
   (c4_chunking_amended 1000 200 ("hi".data)).2 (by decide)⟩

/-- C2, counterexample to the claim as stated: when the embedding (or insert)
of the chunk at position 0 fails, the persisted rows are `[(1, chunk1)]` —
the recorded `chunk_index` values are not dense from 0, index 0 is missing. -/
theorem c2_dense_counterexample :
    processBatches ["alpha".data, "bravo".data] (fun j => decide (j ≠ 0))
      = [(1, "bravo".data)] ∧
    ¬ denseFrom0 (processBatches ["alpha".data, "bravo".data] (fun j => decide (j ≠ 0))) := by
  decide

/-- C2 as amended: the batch insert loop stores the i-th chunk of the produced
chunk list with `chunk_index = i` (the persisted rows are exactly the
enumerated chunk list restricted to the positions whose embed-and-insert
succeeded), so in a run where every chunk succeeds the persisted indices are
dense and start at 0; a failed chunk's index is simply absent. -/
theorem c2_chunk_index_amended {α : Type} (chunks : List α) (ok : Nat → Bool) :
    processBatches chunks ok
      = chunks.enum.filterMap (fun p => if ok p.1 then some p else none) ∧
    processBatches chunks (fun _ => true) = chunks.enum ∧
    denseFrom0 (processBatches chunks (fun _ => true)) := by
  refine ⟨processBatches_eq chunks ok, ?_, ?_⟩
  · rw [processBatches_eq]
    simp
  · rw [denseFrom0, processBatches_eq]
    simp [List.enum_eq_enumFrom, List.range_eq_range']

/-- C3: the claim matches the intended behaviour (and part_001 implements
it), but part_000's catch handler cannot recover `documentId`: it re-reads the
already-consumed request body, the re-read rejects into `{}`, and the
best-effort `'failed'` update is skipped — a document whose extraction raises
is left in status `processing` forever by part_000, never reaching `failed`
(nor `completed`); part_001, which binds `documentId` outside the `try`,
writes `processing` then `failed` as the claim states. -/
theorem c3_failed_status_bug :
    (ingestServe000 (some ("doc1".data, "file.txt".data)) (.ok "bytes".data)
        (fun _ => .error "extraction failed".data)
        (fun _ => []) (fun _ => true)).statusWrites = [.processing] ∧
    UploadStatus.failed ∉
      (ingestServe000 (some ("doc1".data, "file.txt".data)) (.ok "bytes".data)
        (fun _ => .error "extraction failed".data)
        (fun _ => []) (fun _ => true)).statusWrites ∧
    (ingestServe001 (some ("doc1".data, "file.txt".data)) (.ok "bytes".data)
        (fun _ => .error "extraction failed".data)
        (fun _ => []) (fun _ => true)).statusWrites = [.processing, .failed] := by
  decide

/-- C8: when extraction succeeds with non-blank text, the part_000 handler
writes `processing` then `completed` and answers 200, for every pattern of
per-chunk embed/insert failures — each failure is caught inside the batch,
leaves its siblings' rows intact, and does not prevent the final `completed`
update. -/
theorem c8_completed_despite_chunk_failures
    (payload : List Char × List Char) (file text : List Char)
    (chunkFn : List Char → List TextChunk) (ok : Nat → Bool)
    (hText : (jsTrim text).length ≠ 0) (_hChunks : chunkFn text ≠ []) :
    (ingestServe000 (some payload) (.ok file) (fun _ => .ok text) chunkFn ok).statusWrites
        = [.processing, .completed] ∧
    (ingestServe000 (some payload) (.ok file) (fun _ => .ok text) chunkFn ok).inserted
        = (chunkFn text).enum.filterMap (fun p => if ok p.1 then some p else none) ∧
    (ingestServe000 (some payload) (.ok file) (fun _ => .ok text) chunkFn ok).httpOk
        = true := by
  simp [ingestServe000, hText, processBatches_eq]

/-- Witness for C8: a run in which every chunk embedding fails still ends
`completed`. -/
theorem c8_completed_despite_chunk_failures_witness :
    (ingestServe000 (some ("doc1".data, "f.txt".data)) (.ok "bytes".data)
        (fun _ => .ok "hello".data) (fun t => [⟨t, 0, 5⟩])
        (fun _ => false)).statusWrites = [.processing, .completed] :=
  (c8_completed_despite_chunk_failures ("doc1".data, "f.txt".data) "bytes".data
    "hello".data (fun t => [⟨t, 0, 5⟩]) (fun _ => false)
    (by decide) (by decide)).1

/-- C6, counterexample to the claim as stated: the document-ingestion and
chat copies of `generateEmbedding` send their input unchanged — an input of
8001 characters goes out untruncated. -/
theorem c6_truncation_counterexample :
    documentIngestEmbeddingInput (List.replicate 8001 'a') = List.replicate 8001 'a' ∧
    chatEmbeddingInput (List.replicate 8001 'a') = List.replicate 8001 'a' ∧
    8000 < (List.replicate 8001 'a').length := by
  refine ⟨rfl, rfl, ?_⟩
  rw [List.length_replicate]
  omega

/-- C6 as amended: only the manual-knowledge and URL-ingestion copies of
`generateEmbedding` truncate: an input over 8000 characters is silently cut to
its first 8000 characters (so the sent input never exceeds 8000), an input at
or under the limit is sent unchanged; the document-ingestion and chat copies
send every input unchanged. -/
theorem c6_truncation_amended (text : List Char) :
    (8000 < text.length → manualKnowledgeEmbeddingInput text = text.take 8000) ∧
    (text.length ≤ 8000 → manualKnowledgeEmbeddingInput text = text) ∧
    (manualKnowledgeEmbeddingInput text).length ≤ 8000 ∧
    documentIngestEmbeddingInput text = text ∧
    chatEmbeddingInput text = text := by
  refine ⟨fun h => ?_, fun h => ?_, ?_, rfl, rfl⟩
  · rw [manualKnowledgeEmbeddingInput, if_pos h]
  · rw [manualKnowledgeEmbeddingInput, if_neg (by omega)]
  · rw [manualKnowledgeEmbeddingInput]
    split
    · simp
    · omega

/-- Witness for the amended C6 at concrete inputs. -/
theorem c6_truncation_amended_witness :
    manualKnowledgeEmbeddingInput (List.replicate 8001 'b')
        = (List.replicate 8001 'b').take 8000 ∧
    manualKnowledgeEmbeddingInput ("abc".data) = "abc".data :=
  ⟨(c6_truncation_amended (List.replicate 8001 'b')).1
      (by rw [List.length_replicate]; omega),
   (c6_truncation_amended ("abc".data)).2.1 (by decide)⟩

/-- C1: `search_chunks` and `search_knowledge` return only rows whose
similarity `1 - dist` is strictly greater than the threshold, ordered by
increasing cosine distance (equivalently non-increasing similarity), and
return at most `match_count` rows; `search_chunks` additionally returns only
chunks whose parent document has `upload_status = 'completed'`, and
`search_knowledge` only rows with a non-null embedding. -/
theorem c1_similarity_search (docs : List DocumentRow) (rows : List ChunkRow)
    (krows : List KnowledgeRow) (t : ℚ) (k : Nat) :
    (∀ r ∈ search_chunks docs rows t k,
        (1 : ℚ) - r.queryDist > t ∧
        ∃ d ∈ docs, d.id = r.document_id ∧ d.upload_status = "completed".data) ∧
    (search_chunks docs rows t k).Sorted distLE ∧
    ((search_chunks docs rows t k).map
        (fun r => (1 : ℚ) - r.queryDist)).Sorted (fun a b => b ≤ a) ∧
    (search_chunks docs rows t k).length ≤ k ∧
    (∀ r ∈ search_knowledge krows t k,
        (1 : ℚ) - r.queryDist > t ∧ r.hasEmbedding = true) ∧
    (search_knowledge krows t k).Sorted kdistLE ∧
    (search_knowledge krows t k).length ≤ k := by
  have hcs : (search_chunks docs rows t k).Sorted distLE :=
    List.Pairwise.sublist (List.take_sublist _ _)
      (List.sorted_insertionSort distLE _)
  have hks : (search_knowledge krows t k).Sorted kdistLE :=
    List.Pairwise.sublist (List.take_sublist _ _)
      (List.sorted_insertionSort kdistLE _)
  refine ⟨?_, hcs, ?_, ?_, ?_, hks, ?_⟩
  · intro r hr
    have hr1 := List.mem_of_mem_take hr
    rw [List.mem_insertionSort] at hr1
    have hp := (List.mem_filter.mp hr1).2
    simp only [Bool.and_eq_true, List.any_eq_true, beq_iff_eq,
      decide_eq_true_eq] at hp
    obtain ⟨⟨d, hd, hdid, hstat⟩, hsim⟩ := hp
    exact ⟨hsim, d, hd, hdid, hstat⟩
  · exact List.Pairwise.map _ (fun a b hab => by
      exact sub_le_sub_left hab 1) hcs
  · rw [search_chunks]
    simp [List.length_take]
  · intro r hr
    have hr1 := List.mem_of_mem_take hr
    rw [List.mem_insertionSort] at hr1
    have hp := (List.mem_filter.mp hr1).2
    simp only [Bool.and_eq_true, decide_eq_true_eq] at hp
    exact ⟨hp.2, hp.1⟩
  · rw [search_knowledge]
    simp [List.length_take]

theorem demo_search_chunks_eval :
    search_chunks [demoDoc] [demoChunkHigh, demoChunkLow] (7/10) 5 = [demoChunkHigh] := by
  have h1 : decide ((1 : ℚ) - 9/50 > 7/10) = true := decide_eq_true (by norm_num)
  have h2 : decide ((1 : ℚ) - 7/20 > 7/10) = false := decide_eq_false (by norm_num)
  rw [search_chunks]
  simp [demoDoc, demoChunkHigh, demoChunkLow, h1, h2, List.insertionSort,
    List.orderedInsert]

/-- Witness for C1, instantiating the spec scenario: two stored chunks with
similarities 0.82 and 0.65 under a completed document, threshold 0.7, top 5 —
the returned rows all beat the threshold and number at most five (that single
returned row is the 0.82 chunk). -/
theorem c1_similarity_search_witness :
    (1 : ℚ) - demoChunkHigh.queryDist > 7/10 ∧
    (search_chunks [demoDoc] [demoChunkHigh, demoChunkLow] (7/10) 5).length ≤ 5 :=
  ⟨((c1_similarity_search [demoDoc] [demoChunkHigh, demoChunkLow] [] (7/10) 5).1
      demoChunkHigh
      (by rw [demo_search_chunks_eval]; exact List.mem_singleton_self _)).1,
   (c1_similarity_search [demoDoc] [demoChunkHigh, demoChunkLow] [] (7/10) 5).2.2.2.1⟩

/-- C7, counterexample to the claim as stated: the CSV-Headers variant of
`parseCSVToText` (part_001 lines 291-307, cited by the claim) labels the
header row `CSV Headers:` and does not split columns, so on the claim's own
input `"a,b\n1,2\n3,4"` its output contains neither `"Table Headers: a, b"`
nor `"Row 1: 1 | 2"`. -/
theorem c7_csv_counterexample :
    parseCSVToTextLegacy ("a,b\n1,2\n3,4".data)
        = ("CSV Headers: a,b\n\nRow 1: 1,2\nRow 2: 3,4\n").data ∧
    containsSub ("Table Headers: a, b".data) (parseCSVToTextLegacy ("a,b\n1,2\n3,4".data))
        = false ∧
    containsSub ("Row 1: 1 | 2".data) (parseCSVToTextLegacy ("a,b\n1,2\n3,4".data))
        = false := by
  decide

/-- C7 as amended: the Table-Headers variant of `parseCSVToText` (part_001
lines 832-853) emits the header row as `Table Headers: <cols joined by ", ">`
and each subsequent non-blank line at index `i` as
`Row i: <cols joined by " | ">` — `i` the line's 0-based index over all lines,
i.e. its 1-based position counting from the header; on `"a,b\n1,2\n3,4"` the
output contains `"Table Headers: a, b"` and `"Row 1: 1 | 2"`.  The variant at
lines 291-307 instead emits `CSV Headers:` and unsplit rows. -/
theorem c7_csv_amended :
    parseCSVToText ("a,b\n1,2\n3,4".data)
        = ("Table Headers: a, b\nRow 1: 1 | 2\nRow 2: 3 | 4").data ∧
    containsSub ("Table Headers: a, b".data) (parseCSVToText ("a,b\n1,2\n3,4".data))
        = true ∧
    containsSub ("Row 1: 1 | 2".data) (parseCSVToText ("a,b\n1,2\n3,4".data))
        = true ∧
    parseCSVToText ("a,b\n\n1,2".data)
        = ("Table Headers: a, b\nRow 2: 1 | 2").data := by
  decide

/-- C9: a failed chunk or knowledge search RPC is only logged and leaves
`data = null`, which the assembly treats exactly like zero results; a section
with zero results is omitted entirely from the context block; with both
sections empty the context is the empty string and the system prompt is still
the well-formed fixed text; the chat turn still completes normally. -/
theorem c9_retrieval_degradation (q : List ℚ) (e₁ e₂ : String)
    (searchCRes : Except String (List RpcChunkHit))
    (searchKRes : Except String (List RpcKnowledgeHit))
    (complete : String → Except String String) (answer : String) :
    chatServe (.ok q) (.error e₁) searchKRes complete
        = chatServe (.ok q) (.ok []) searchKRes complete ∧
    chatServe (.ok q) searchCRes (.error e₂) complete
        = chatServe (.ok q) searchCRes (.ok []) complete ∧
    buildChatContext none searchKRes.toOption = knowledgeSection searchKRes.toOption ∧
    buildChatContext (some []) searchKRes.toOption = knowledgeSection searchKRes.toOption ∧
    buildChatContext searchCRes.toOption none = chunkSection searchCRes.toOption ∧
    buildChatContext none none = "" ∧
    systemPrompt "" = promptHead ++ promptTail ∧
    chatServe (.ok q) (.error e₁) (.error e₂) (fun _ => .ok answer)
        = .ok ⟨answer, 0, 0⟩ := by
  refine ⟨?_, ?_, ?_, ?_, ?_, rfl, ?_, rfl⟩
  · simp [chatServe, Except.toOption, buildChatContext, chunkSection]
  · simp [chatServe, Except.toOption, buildChatContext, knowledgeSection]
  · simp [buildChatContext, chunkSection]
  · simp [buildChatContext, chunkSection]
  · simp [buildChatContext, knowledgeSection]
  · simp [systemPrompt]

/-- C10: `extractTitleFromContent` is total and never yields an empty title:
it returns the content's trimmed first line exactly when that line's length
lies strictly between 10 and 100 characters; otherwise it returns
`Content from <hostname>` when the URL parses, and otherwise the fixed string
`Web Content`. -/
theorem c10_title_total (content url : List Char)
    (parseHostname : List Char → Option (List Char)) :
    extractTitleFromContent content url parseHostname ≠ [] ∧
    (extractTitleFromContent content url parseHostname
        = jsTrim ((splitOnChar '\n' content).headD []) ∨
      (∃ host, parseHostname url = some host ∧
        extractTitleFromContent content url parseHostname
          = "Content from ".data ++ host) ∨
      extractTitleFromContent content url parseHostname = "Web Content".data) ∧
    (10 < (jsTrim ((splitOnChar '\n' content).headD [])).length →
      (jsTrim ((splitOnChar '\n' content).headD [])).length < 100 →
      extractTitleFromContent content url parseHostname
        = jsTrim ((splitOnChar '\n' content).headD [])) ∧
    (¬ (10 < (jsTrim ((splitOnChar '\n' content).headD [])).length ∧
          (jsTrim ((splitOnChar '\n' content).headD [])).length < 100) →
      ∀ host, parseHostname url = some host →
        extractTitleFromContent content url parseHostname
          = "Content from ".data ++ host) ∧
    (¬ (10 < (jsTrim ((splitOnChar '\n' content).headD [])).length ∧
          (jsTrim ((splitOnChar '\n' content).headD [])).length < 100) →
      parseHostname url = none →
      extractTitleFromContent content url parseHostname = "Web Content".data) := by
  have hcf : "Content from ".data ≠ ([] : List Char) := by decide
  have hwc : "Web Content".data ≠ ([] : List Char) := by decide
  rw [extractTitleFromContent]
  by_cases hcond : 10 < (jsTrim ((splitOnChar '\n' content).headD [])).length ∧
      (jsTrim ((splitOnChar '\n' content).headD [])).length < 100
  · rw [if_pos hcond]
    refine ⟨?_, Or.inl rfl, fun _ _ => rfl,
      fun hnot => absurd hcond hnot, fun hnot _ => absurd hcond hnot⟩
    have : 0 < (jsTrim ((splitOnChar '\n' content).headD [])).length := by omega
    exact List.length_pos.mp this
  · rw [if_neg hcond]
    cases hurl : parseHostname url with
    | some host =>
      refine ⟨?_, Or.inr (Or.inl ⟨host, rfl, rfl⟩),
        fun h1 h2 => absurd ⟨h1, h2⟩ hcond, ?_, fun _ h' => Option.noConfusion h'⟩
      · intro hnil
        exact hcf (List.append_eq_nil.mp hnil).1
      · intro _ host' h'
        injection h' with hh
        rw [hh]
    | none =>
      exact ⟨hwc, Or.inr (Or.inr rfl), fun h1 h2 => absurd ⟨h1, h2⟩ hcond,
        fun _ host' h' => Option.noConfusion h', fun _ _ => rfl⟩

/-- Witness for C10: a content whose first line qualifies returns that line;
a content with a too-short first line falls back to `Content from <hostname>`
when the URL parses, and to `Web Content` when it does not. -/
theorem c10_title_total_witness :
    extractTitleFromContent ("This is a sufficiently long first line".data)
        ("u".data) (fun _ => none) ≠ [] ∧
    extractTitleFromContent ("This is a sufficiently long first line".data)
        ("u".data) (fun _ => none)
      = jsTrim ((splitOnChar '\n' ("This is a sufficiently long first line".data)).headD []) ∧
    extractTitleFromContent ("short".data) ("https://x.y".data)
        (fun _ => some ("x.y".data))
      = "Content from ".data ++ "x.y".data ∧
    extractTitleFromContent ("short".data) ("::bad::".data) (fun _ => none)
      = "Web Content".data :=
  ⟨(c10_title_total ("This is a sufficiently long first line".data)
      ("u".data) (fun _ => none)).1,
   (c10_title_total ("This is a sufficiently long first line".data)
      ("u".data) (fun _ => none)).2.2.1 (by decide) (by decide),
   (c10_title_total ("short".data) ("https://x.y".data)
      (fun _ => some ("x.y".data))).2.2.2.1 (by decide) ("x.y".data) rfl,
   (c10_title_total ("short".data) ("::bad::".data) (fun _ => none)).2.2.2.2
      (by decide) rfl⟩

end Talon
